import Mathlib

/-!
Verification development for the Design-System-Refactor-Radar core:
the import-boundary purity analyzer (src/import-boundary-analyzer.ts)
and the business-logic risk analyzer.

The TypeScript source is shallowly embedded below.  External
collaborators of the analyzed code (the TypeScript parser producing the
edge list of a file, the filesystem existence probe, and the loaded
tsconfig contents) are passed as parameters, exactly as the analyzed
functions consume their results.  JavaScript string primitives are
embedded as structurally recursive functions over the character list of
a string so that every definition evaluates inside the kernel.
-/

-- ============================================
-- STRING PRIMITIVES (kernel-evaluable embeddings of the JS operations)
-- ============================================

/-- Rebuild a string from a character list. -/
def ofChars (cs : List Char) : String := ⟨cs⟩

/-- Embedding of JavaScript String.startsWith. -/
def strStartsWith (s p : String) : Bool := List.isPrefixOf p.data s.data

/-- Embedding of JavaScript String.endsWith. -/
def strEndsWith (s p : String) : Bool := List.isSuffixOf p.data s.data

/-- Substring containment on character lists (JS String.includes). -/
def containsSub (hay needle : List Char) : Bool :=
  List.isPrefixOf needle hay ||
    match hay with
    | [] => false
    | _ :: t => containsSub t needle

/-- Embedding of JavaScript String.includes. -/
def strContains (s sub : String) : Bool := containsSub s.data sub.data

/-- Split a character list on a separator character. -/
def splitCharsAux (sep : Char) : List Char → List Char → List (List Char)
  | [], acc => [acc.reverse]
  | c :: cs, acc =>
    if c == sep then acc.reverse :: splitCharsAux sep cs []
    else splitCharsAux sep cs (c :: acc)

/-- Split a string on a single-character separator (String.split in JS,
String.splitOn in Lean, for a one-character separator). -/
def splitOnChar (sep : Char) (s : String) : List String :=
  (splitCharsAux sep s.data []).map ofChars

/-- Join a list of strings with a separator. -/
def joinWith (sep : String) : List String → String
  | [] => ""
  | [x] => x
  | x :: y :: xs => x ++ sep ++ joinWith sep (y :: xs)

/-- Replace every occurrence of a single character by a string
(the JS replacement with a global one-character pattern). -/
def replaceChar (c : Char) (by_ s : String) : String :=
  joinWith by_ (splitOnChar c s)

-- ============================================
-- PATH ARITHMETIC (node:path embeddings for absolute POSIX paths)
-- ============================================

/-- Segment normalization used by node path.resolve: empty and dot
segments are dropped, a dot-dot segment pops the previous one. -/
def normSegments (segs : List String) : List String :=
  segs.foldl
    (fun acc s =>
      if s = "" ∨ s = "." then acc
      else if s = ".." then acc.dropLast
      else acc ++ [s])
    []

/-- Normalize an absolute POSIX path. -/
def normAbs (p : String) : String :=
  "/" ++ joinWith "/" (normSegments (splitOnChar '/' p))

/-- Embedding of node path.resolve with two arguments, for an absolute
first argument: an absolute second argument wins, a relative one is
joined and normalized. -/
def pathResolve (a b : String) : String :=
  if strStartsWith b "/" then normAbs b else normAbs (a ++ "/" ++ b)

/-- Embedding of node path.dirname for absolute paths. -/
def dirname (p : String) : String :=
  "/" ++ joinWith "/" ((splitOnChar '/' p).filter (fun s => s ≠ "")).dropLast

/-- Drop the shared leading segments of two segment lists. -/
def stripShared : List String → List String → List String × List String
  | [], ts => ([], ts)
  | fs, [] => (fs, [])
  | f :: fs, t :: ts =>
    if f = t then stripShared fs ts else (f :: fs, t :: ts)

/-- Embedding of node path.relative for two absolute paths. -/
def relativeTo (from_ to_ : String) : String :=
  let pair := stripShared (normSegments (splitOnChar '/' from_)) (normSegments (splitOnChar '/' to_))
  joinWith "/" (List.replicate pair.1.length ".." ++ pair.2)

-- ============================================
-- DATA MODEL (import-boundary-analyzer.ts)
-- ============================================

/-- The tsconfig data the analyzer consumes: an optional baseUrl and the
ordered alias table (pattern, replacement list) from compilerOptions
paths.  The source loads this from tsconfig.json through the filesystem;
the embedding receives it as a value. -/
structure TsConfigPaths where
  baseUrl : Option String
  paths : List (String × List String)
deriving Repr, DecidableEq

/-- One import/require occurrence inside a source file
(interface ImportInfo in the source). -/
structure ImportInfo where
  path : String
  line : Nat
  isDynamic : Bool
  isRequire : Bool
deriving Repr, DecidableEq

/-- The four reason kinds of the violation-reason tagged union. -/
inductive ReasonType where
  | forbiddenImport
  | serverApi
  | transitive
  | dataFetching
deriving Repr, DecidableEq

/-- One violation reason carried by a purity report. -/
structure Reason where
  type : ReasonType
  importPath : String
  resolvedPath : Option String
  line : Option Nat
  message : String
deriving Repr, DecidableEq

/-- The purity slice of the configuration (PurityConfig in config.ts). -/
structure PurityConfig where
  enabled : Bool
  uiCandidateDirs : List String
  allowedImportMatchers : List String
  forbiddenImportMatchers : List String
  businessDirMatchers : List String
  nextServerImportMatchers : List String
deriving Repr, DecidableEq

/-- The slice of DsCoverageConfig the analyzer reads. -/
structure DsCoverageConfig where
  purity : PurityConfig
deriving Repr, DecidableEq

/-- Purity classification of a UI-candidate file. -/
inductive Purity where
  | pure
  | impure
deriving Repr, DecidableEq

/-- The per-file report (ImportBoundaryReport in types.ts). -/
structure ImportBoundaryReport where
  path : String
  isUiCandidate : Bool
  purity : Purity
  score : Nat
  reasons : List Reason
deriving Repr, DecidableEq

-- ============================================
-- TYPESCRIPT PATH ALIAS RESOLUTION (resolvePathAlias)
-- ============================================

/-- Matching of one tsconfig paths pattern against an import specifier.
The source builds the regex from the pattern by substituting every star
with a one-or-more capture group and anchoring both ends; tsconfig
patterns carry at most one star, which this embedding covers (zero stars
is an exact match whose absent capture the source coerces to the empty
string).  Returns the captured middle on success. -/
def patternMatch (pattern input : String) : Option String :=
  match splitOnChar '*' pattern with
  | [p] => if input = p then some "" else none
  | [p, s] =>
    if strStartsWith input p && strEndsWith input s
        && decide (p.data.length + s.data.length < input.data.length) then
      some (ofChars ((input.data.drop p.data.length).take
        (input.data.length - p.data.length - s.data.length)))
    else none
  | _ => none

/-- Substitute the captured text for every star of the replacement
(replacement.replace of all stars by the capture). -/
def substCapture (replacement capture : String) : String :=
  joinWith capture (splitOnChar '*' replacement)

/-- The alias-table loop of resolvePathAlias: patterns are tried in
declaration order; a matching pattern with a truthy first replacement
wins; otherwise the loop continues. -/
def tryAliases (entries : List (String × List String)) (importPath : String)
    (baseUrl : Option String) (projectRoot : String) : Option String :=
  match entries with
  | [] => none
  | (pattern, replacements) :: rest =>
    match patternMatch pattern importPath with
    | some capture =>
      match replacements.head? with
      | some replacement =>
        if replacement = "" then tryAliases rest importPath baseUrl projectRoot
        else
          some (pathResolve (pathResolve projectRoot (baseUrl.getD projectRoot))
            (substCapture replacement capture))
      | none => tryAliases rest importPath baseUrl projectRoot
    | none => tryAliases rest importPath baseUrl projectRoot

/-- Embedding of resolvePathAlias: alias table first, then relative and
root-absolute specifiers, then null for bare (external) specifiers. -/
def resolvePathAlias (importPath : String) (tsConfig : TsConfigPaths)
    (projectRoot currentFileDir : String) : Option String :=
  match tryAliases tsConfig.paths importPath tsConfig.baseUrl projectRoot with
  | some r => some r
  | none =>
    if strStartsWith importPath "." || strStartsWith importPath "/" then
      if strStartsWith importPath "/" then
        some (pathResolve projectRoot (ofChars (importPath.data.drop 1)))
      else
        some (pathResolve currentFileDir importPath)
    else none

-- ============================================
-- PURITY CHECKING (checkImportAgainstMatchers, isBusinessDir)
-- ============================================

/-- Embedding of checkImportAgainstMatchers: a matcher ending in a slash
matches by prefix, otherwise exact or prefix-with-slash. -/
def checkImportAgainstMatchers (importPath : String) (matchers : List String) : Bool :=
  matchers.any fun matcher =>
    if strEndsWith matcher "/" then strStartsWith importPath matcher
    else importPath == matcher || strStartsWith importPath (matcher ++ "/")

/-- Embedding of isBusinessDir: a falsy (null or empty) resolved path
never matches; otherwise the backslash-normalized path must contain some
matcher as a substring. -/
def isBusinessDir (resolvedPath : Option String) (businessDirMatchers : List String) : Bool :=
  match resolvedPath with
  | none => false
  | some p =>
    if p = "" then false
    else businessDirMatchers.any fun matcher =>
      strContains (replaceChar '\\' "/" p) matcher

/-- JavaScript coercion resolved-or-undefined used when a reason stores
an optional resolved path: null and the empty string become absent. -/
def orUndefined : Option String → Option String
  | none => none
  | some s => if s = "" then none else some s

-- ============================================
-- DIRECT CHECK (analyzeFileImports loop body)
-- ============================================

/-- Classification of one import edge, the loop body of
analyzeFileImports: forbidden matchers first, then server-API matchers,
then business-directory containment of the resolved path; the first
matching rule emits a reason and the continue skips the rest. -/
def classifyEdge (imp : ImportInfo) (tsConfig : TsConfigPaths)
    (projectRoot currentFileDir : String) (purityConfig : PurityConfig) : Option Reason :=
  if checkImportAgainstMatchers imp.path purityConfig.forbiddenImportMatchers then
    some { type := ReasonType.forbiddenImport
           importPath := imp.path
           resolvedPath := orUndefined (resolvePathAlias imp.path tsConfig projectRoot currentFileDir)
           line := some imp.line
           message := "Forbidden import: \"" ++ imp.path ++ "\"" }
  else if checkImportAgainstMatchers imp.path purityConfig.nextServerImportMatchers then
    some { type := ReasonType.serverApi
           importPath := imp.path
           resolvedPath := none
           line := some imp.line
           message := "Next.js server API: \"" ++ imp.path ++ "\"" }
  else
    let resolved := resolvePathAlias imp.path tsConfig projectRoot currentFileDir
    if isBusinessDir resolved purityConfig.businessDirMatchers then
      some { type := ReasonType.forbiddenImport
             importPath := imp.path
             resolvedPath := orUndefined resolved
             line := some imp.line
             message := "Business logic zone import: \"" ++ imp.path ++ "\"" }
    else none

/-- Embedding of analyzeFileImports.  The parse parameter stands for the
TypeScript parser composed with extractImports (a parse failure yields
the empty edge list, matching the try/catch of the source); the visited
set is received but, as in the source, never consulted. -/
def analyzeFileImports (parse : String → String → List ImportInfo)
    (filePath : String) (fileContents : List (String × String))
    (projectRoot : String) (tsConfig : TsConfigPaths)
    (purityConfig : PurityConfig) (visited : List String) : List Reason :=
  match List.lookup filePath fileContents with
  | none => []
  | some content =>
    if content = "" then []
    else
      let currentFileDir := dirname filePath
      (parse filePath content).filterMap fun imp =>
        classifyEdge imp tsConfig projectRoot currentFileDir purityConfig

-- ============================================
-- TRANSITIVE CHECKING (checkTransitiveImports)
-- ============================================

/-- The extension-candidate list probed for a resolved relative import:
for each of the four source suffixes, the resolved path itself when it
already ends with that suffix, otherwise the resolved path with the
suffix appended. -/
def extensionCandidates (resolved : String) : List String :=
  [".ts", ".tsx", ".js", ".jsx"].map fun ext =>
    if strEndsWith resolved ext then resolved else resolved ++ ext

/-- The candidate probe loop of checkTransitiveImports: the first
candidate that exists on disk and is a key of the content mapping. -/
def probeExtensions (fsExists : String → Bool)
    (fileContents : List (String × String)) (resolved : String) : Option String :=
  (extensionCandidates resolved).find? fun candidate =>
    fsExists candidate && (List.lookup candidate fileContents).isSome

/-- Embedding of checkTransitiveImports.  A file already in the visited
set is skipped outright; otherwise the file is added to visited (the
updated set is threaded to analyzeFileImports, which ignores it) and
every relative import whose resolved identity probes to a loaded file
with a nonempty direct-violation list yields one transitive reason. -/
def checkTransitiveImports (parse : String → String → List ImportInfo)
    (fsExists : String → Bool) (filePath : String)
    (fileContents : List (String × String)) (projectRoot : String)
    (tsConfig : TsConfigPaths) (purityConfig : PurityConfig)
    (visited : List String) : List Reason :=
  if visited.contains filePath then []
  else
    let visited := filePath :: visited
    match List.lookup filePath fileContents with
    | none => []
    | some content =>
      if content = "" then []
      else
        let currentFileDir := dirname filePath
        (parse filePath content).filterMap fun imp =>
          if !strStartsWith imp.path "." then none
          else
            match resolvePathAlias imp.path tsConfig projectRoot currentFileDir with
            | none => none
            | some resolved =>
              if resolved = "" then none
              else
                match probeExtensions fsExists fileContents resolved with
                | none => none
                | some foundFile =>
                  if (analyzeFileImports parse foundFile fileContents projectRoot
                        tsConfig purityConfig visited).length > 0 then
                    some { type := ReasonType.transitive
                           importPath := imp.path
                           resolvedPath := some foundFile
                           line := none
                           message := "Transitive dependency via \"" ++ imp.path
                             ++ "\" imports business logic" }
                  else none

-- ============================================
-- FILE ANALYSIS (analyzeFile, analyzeImportBoundaries)
-- ============================================

/-- Word characters of the JS regex word-boundary assertion. -/
def isWordChar (c : Char) : Bool := c.isAlpha || c.isDigit || c = '_'

/-- ASCII whitespace of the JS regex whitespace class. -/
def isSpaceChar (c : Char) : Bool :=
  c = ' ' || c = '\t' || c = '\n' || c = '\r' || c = '\x0b' || c = '\x0c'

/-- A word boundary holds at the start of the text or after a non-word
character. -/
def boundaryOk : Option Char → Bool
  | none => true
  | some c => !isWordChar c

/-- Scanner for a regex of shape word-boundary, literal word, trailing
test: walks the text and succeeds once the word occurs at a boundary
position with the trailing test accepting the rest. -/
def scanFor (w : List Char) (after : List Char → Bool) :
    Option Char → List Char → Bool
  | _, [] => false
  | prev, c :: cs =>
    (boundaryOk prev && List.isPrefixOf w (c :: cs) && after ((c :: cs).drop w.length))
    || scanFor w after (some c) cs

/-- Trailing test of the fetch pattern: optional whitespace then an
opening parenthesis. -/
def afterFetchCall (rest : List Char) : Bool :=
  match rest.dropWhile isSpaceChar with
  | '(' :: _ => true
  | _ => false

/-- Trailing test of the axios pattern: a literal dot. -/
def afterAxiosDot (rest : List Char) : Bool :=
  match rest with
  | '.' :: _ => true
  | _ => false

/-- The data-fetching probe of analyzeFile: the fetch-call idiom or the
axios member idiom occurs somewhere in the content (the source pushes at
most one data-fetching reason thanks to the break). -/
def dataFetchProbe (content : String) : Bool :=
  scanFor "fetch".data afterFetchCall none content.data
    || scanFor "axios".data afterAxiosDot none content.data

/-- Weight of one violation reason in the purity score. -/
def reasonWeight : ReasonType → Nat
  | ReasonType.forbiddenImport => 30
  | ReasonType.serverApi => 25
  | ReasonType.transitive => 15
  | ReasonType.dataFetching => 10

/-- Embedding of analyzeFile: UI-candidate gate, falsy-content gate,
direct reasons, unconditional one-hop transitive reasons, at most one
data-fetching reason, then score (clamped at 100) and purity. -/
def analyzeFile (parse : String → String → List ImportInfo)
    (fsExists : String → Bool) (filePath relativePath : String)
    (fileContents : List (String × String)) (projectRoot : String)
    (tsConfig : TsConfigPaths) (purityConfig : PurityConfig) :
    Option ImportBoundaryReport :=
  let isUiCandidate := purityConfig.uiCandidateDirs.any fun dir =>
    strStartsWith relativePath dir || strStartsWith relativePath (dir ++ "/")
  if !isUiCandidate then none
  else
    match List.lookup filePath fileContents with
    | none => none
    | some content =>
      if content = "" then none
      else
        let directReasons := analyzeFileImports parse filePath fileContents
          projectRoot tsConfig purityConfig []
        let transitiveReasons := checkTransitiveImports parse fsExists filePath
          fileContents projectRoot tsConfig purityConfig []
        let dataFetchingReasons : List Reason :=
          if dataFetchProbe content then
            [{ type := ReasonType.dataFetching
               importPath := ""
               resolvedPath := none
               line := none
               message := "Data fetching detected (fetch/axios)" }]
          else []
        let reasons := directReasons ++ transitiveReasons ++ dataFetchingReasons
        let score := Nat.min 100 (reasons.foldl (fun s r => s + reasonWeight r.type) 0)
        some { path := relativePath
               isUiCandidate := true
               purity := if score > 0 then Purity.impure else Purity.pure
               score := score
               reasons := reasons }

/-- Embedding of analyzeImportBoundaries, the public entry point: a
disabled purity config yields the empty mapping; otherwise every entry
of the content mapping is analyzed under its project-relative path and
the non-null reports are collected, keyed by that relative path.  The
tsconfig loaded from disk by the source is received as a parameter. -/
def analyzeImportBoundaries (parse : String → String → List ImportInfo)
    (fsExists : String → Bool) (fileContents : List (String × String))
    (projectRoot : String) (tsConfig : TsConfigPaths)
    (config : DsCoverageConfig) : List (String × ImportBoundaryReport) :=
  if !config.purity.enabled then []
  else
    fileContents.filterMap fun entry =>
      let relativePath := relativeTo projectRoot entry.1
      match analyzeFile parse fsExists entry.1 relativePath fileContents
          projectRoot tsConfig config.purity with
      | some report => some (relativePath, report)
      | none => none

-- ============================================
-- NATIVE HTML ELEMENT DETECTION (business-logic analyzer)
-- ============================================

/-- Match of the per-element pattern at the head of the text: a left
angle bracket, the element name, then whitespace, a slash, a closing
angle bracket, or end of text.  Returns the length the regex match
consumes (the boundary character belongs to the match, the end-of-text
alternative consumes nothing). -/
def elementMatchAt (e : List Char) (cs : List Char) : Option Nat :=
  match cs with
  | [] => none
  | c :: rest =>
    if c = '<' ∧ List.isPrefixOf e rest then
      match rest.drop e.length with
      | [] => some (1 + e.length)
      | b :: _ =>
        if isSpaceChar b || b = '/' || b = '>' then some (1 + e.length + 1)
        else none
    else none

/-- Count of the non-overlapping, left-to-right matches of the element
pattern, as the global regex match of the source produces them; the fuel
argument is instantiated with the text length, which bounds the scan
because every match consumes at least one character. -/
def countMatchesAux (e : List Char) : Nat → List Char → Nat
  | 0, _ => 0
  | _, [] => 0
  | fuel + 1, c :: rest =>
    match elementMatchAt e (c :: rest) with
    | some len => 1 + countMatchesAux e fuel ((c :: rest).drop len)
    | none => countMatchesAux e fuel rest

/-- Number of pattern occurrences of one element in the content
(content.match with the per-element pattern, null counted as zero).  The
element name is taken literally; configured element names carry no regex
metacharacters. -/
def countElementMatches (content element : String) : Nat :=
  countMatchesAux element.data content.data.length content.data

/-- JavaScript object property assignment: an existing key is
overwritten in place, a new key is appended. -/
def recordSet (m : List (String × Nat)) (k : String) (v : Nat) : List (String × Nat) :=
  match m with
  | [] => [(k, v)]
  | (k', v') :: rest => if k' = k then (k, v) :: rest else (k', v') :: recordSet rest k v

/-- The record detectNativeHtmlElements returns: the per-element counts
plus their total. -/
structure NativeHtmlCounts where
  counts : List (String × Nat)
  total : Nat
deriving Repr, DecidableEq

/-- Embedding of detectNativeHtmlElements: one count per configured
element, then the total as the sum of the record values. -/
def detectNativeHtmlElements (content : String) (elements : List String) : NativeHtmlCounts :=
  let counts := elements.foldl (fun m e => recordSet m e (countElementMatches content e)) []
  { counts := counts
    total := (counts.map Prod.snd).foldl (fun sum count => sum + count) 0 }

-- ============================================
-- RISK ASSESSMENT (assessRisk)
-- ============================================

/-- The signal record detectBusinessLogicSignals produces and assessRisk
consumes. -/
structure BusinessSignals where
  apiCalls : Nat
  useStateCount : Nat
  useEffectCount : Nat
  fileUploads : Bool
  authFlows : Bool
  formHandling : Bool
deriving Repr, DecidableEq

/-- One ceiling row of the risk thresholds. -/
structure RiskCeilings where
  maxApiCalls : Nat
  maxStateHooks : Nat
  maxEffects : Nat
deriving Repr, DecidableEq

/-- The riskThresholds slice of BusinessLogicAnalysisConfig. -/
structure RiskThresholds where
  safe : RiskCeilings
  careful : RiskCeilings
deriving Repr, DecidableEq

/-- The three refactor-risk tiers. -/
inductive RiskLevel where
  | safe
  | careful
  | pageLevel
deriving Repr, DecidableEq

/-- The complexity record assessRisk returns. -/
structure RiskAssessment where
  riskLevel : RiskLevel
  score : Nat
  signals : List String
deriving Repr, DecidableEq

/-- Embedding of assessRisk: sequential signal accumulation into the
detected-signal strings and the weighted score, then the tier decision
(page-level first, then careful, else safe) on the unclamped score, and
the clamp to 100 in the returned record. -/
def assessRisk (signals : BusinessSignals) (nativeHtmlCount : Nat)
    (fileLines : Nat) (thresholds : RiskThresholds) : RiskAssessment :=
  let detectedSignals : List String := []
  let score : Nat := 0
  let detectedSignals := if signals.apiCalls > 0 then
      detectedSignals ++ [toString signals.apiCalls ++ " API call"
        ++ (if signals.apiCalls > 1 then "s" else "")]
    else detectedSignals
  let score := if signals.apiCalls > 0 then score + signals.apiCalls * 15 else score
  let detectedSignals := if signals.useStateCount > 0 then
      detectedSignals ++ [toString signals.useStateCount ++ " useState hook"
        ++ (if signals.useStateCount > 1 then "s" else "")]
    else detectedSignals
  let score := if signals.useStateCount > 0 then score + signals.useStateCount * 5 else score
  let detectedSignals := if signals.useEffectCount > 0 then
      detectedSignals ++ [toString signals.useEffectCount ++ " useEffect hook"
        ++ (if signals.useEffectCount > 1 then "s" else "")]
    else detectedSignals
  let score := if signals.useEffectCount > 0 then score + signals.useEffectCount * 10 else score
  let detectedSignals := if signals.fileUploads then detectedSignals ++ ["File uploads"] else detectedSignals
  let score := if signals.fileUploads then score + 25 else score
  let detectedSignals := if signals.authFlows then detectedSignals ++ ["Auth flows"] else detectedSignals
  let score := if signals.authFlows then score + 30 else score
  let detectedSignals := if signals.formHandling then detectedSignals ++ ["Form handling"] else detectedSignals
  let score := if signals.formHandling then score + 10 else score
  let detectedSignals := if nativeHtmlCount > 0 then
      detectedSignals ++ [toString nativeHtmlCount ++ " native HTML element"
        ++ (if nativeHtmlCount > 1 then "s" else "")]
    else detectedSignals
  let score := if nativeHtmlCount > 0 then score + nativeHtmlCount * 2 else score
  let detectedSignals := if fileLines > 300 then
      detectedSignals ++ ["Large file (" ++ toString fileLines ++ " lines)"]
    else detectedSignals
  let score := if fileLines > 300 then score + 10 else score
  let riskLevel :=
    if signals.apiCalls > thresholds.careful.maxApiCalls
        || signals.useStateCount > thresholds.careful.maxStateHooks
        || signals.useEffectCount > thresholds.careful.maxEffects
        || signals.fileUploads
        || signals.authFlows
        || score ≥ 50 then
      RiskLevel.pageLevel
    else if signals.apiCalls > thresholds.safe.maxApiCalls
        || signals.useStateCount > thresholds.safe.maxStateHooks
        || signals.useEffectCount > thresholds.safe.maxEffects
        || nativeHtmlCount > 0
        || score ≥ 20 then
      RiskLevel.careful
    else RiskLevel.safe
  { riskLevel := riskLevel
    score := Nat.min 100 score
    signals := detectedSignals }

-- ============================================
-- SPECIFICATION-SIDE DEFINITIONS (for refinement comparisons)
-- ============================================

/-- Weighted risk score as the specification words it: fifteen per API
call, five per first-hook occurrence, ten per second-hook occurrence,
flat twenty-five for uploads, thirty for auth, ten for forms, two per
native element, ten for a file over three hundred lines. -/
def specWeightedScore (signals : BusinessSignals) (nativeHtmlCount fileLines : Nat) : Nat :=
  signals.apiCalls * 15 + signals.useStateCount * 5 + signals.useEffectCount * 10
    + (if signals.fileUploads then 25 else 0)
    + (if signals.authFlows then 30 else 0)
    + (if signals.formHandling then 10 else 0)
    + nativeHtmlCount * 2
    + (if fileLines > 300 then 10 else 0)

/-- Risk-tier decision as the specification words it: page-level when an
API-call or hook count exceeds its careful ceiling, uploads or auth are
present, or the weighted score reaches fifty; otherwise careful when a
count exceeds its safe ceiling, a native element is present, or the
score reaches twenty; otherwise safe. -/
def riskLevelSpec (signals : BusinessSignals) (nativeHtmlCount fileLines : Nat)
    (thresholds : RiskThresholds) : RiskLevel :=
  let score := specWeightedScore signals nativeHtmlCount fileLines
  if signals.apiCalls > thresholds.careful.maxApiCalls
      ∨ signals.useStateCount > thresholds.careful.maxStateHooks
      ∨ signals.useEffectCount > thresholds.careful.maxEffects
      ∨ signals.fileUploads = true
      ∨ signals.authFlows = true
      ∨ score ≥ 50 then
    RiskLevel.pageLevel
  else if signals.apiCalls > thresholds.safe.maxApiCalls
      ∨ signals.useStateCount > thresholds.safe.maxStateHooks
      ∨ signals.useEffectCount > thresholds.safe.maxEffects
      ∨ nativeHtmlCount > 0
      ∨ score ≥ 20 then
    RiskLevel.careful
  else RiskLevel.safe

-- ============================================
-- CONCRETE INPUTS (fixtures for witnesses and counterexamples)
-- ============================================

/-- Purity configuration used by the concrete scenarios below. -/
def cxPurity : PurityConfig :=
  { enabled := true
    uiCandidateDirs := ["components"]
    allowedImportMatchers := ["react"]
    forbiddenImportMatchers := ["@/lib/"]
    businessDirMatchers := []
    nextServerImportMatchers := ["next/headers"] }

/-- Empty tsconfig (no alias table, no baseUrl). -/
def cxTsConfig : TsConfigPaths := { baseUrl := none, paths := [] }

/-- Content mapping of the direct-plus-transitive scenario: a UI
candidate and the helper it imports relatively. -/
def cxContents : List (String × String) :=
  [("/p/components/a.tsx", "fileA"), ("/p/components/b.ts", "fileB")]

/-- Parse results of the direct-plus-transitive scenario: the candidate
pulls in a forbidden specifier and its relative helper; the helper
pulls in a forbidden specifier. -/
def cxParse (filePath _content : String) : List ImportInfo :=
  if filePath = "/p/components/a.tsx" then
    [{ path := "@/lib/x", line := 1, isDynamic := false, isRequire := false },
     { path := "./b", line := 2, isDynamic := false, isRequire := false }]
  else if filePath = "/p/components/b.ts" then
    [{ path := "@/lib/y", line := 1, isDynamic := false, isRequire := false }]
  else []

/-- Filesystem probe of the direct-plus-transitive scenario: exactly the
loaded files exist. -/
def cxExists (p : String) : Bool := (List.lookup p cxContents).isSome

/-- The report the analyzer produces for the candidate of the
direct-plus-transitive scenario. -/
def cxReport : ImportBoundaryReport :=
  { path := "components/a.tsx"
    isUiCandidate := true
    purity := Purity.impure
    score := 45
    reasons := [{ type := ReasonType.forbiddenImport
                  importPath := "@/lib/x"
                  resolvedPath := none
                  line := some 1
                  message := "Forbidden import: \"@/lib/x\"" },
                { type := ReasonType.transitive
                  importPath := "./b"
                  resolvedPath := some "/p/components/b.ts"
                  line := none
                  message := "Transitive dependency via \"./b\" imports business logic" }] }

/-- Content mapping of the extensionless-helper scenario: the helper is
loaded under its bare identity, with no source suffix. -/
def cx3Contents : List (String × String) :=
  [("/p/components/a.tsx", "fileA"), ("/p/components/b", "fileB")]

/-- Parse results of the extensionless-helper scenario. -/
def cx3Parse (filePath _content : String) : List ImportInfo :=
  if filePath = "/p/components/a.tsx" then
    [{ path := "./b", line := 1, isDynamic := false, isRequire := false }]
  else if filePath = "/p/components/b" then
    [{ path := "@/lib/y", line := 1, isDynamic := false, isRequire := false }]
  else []

/-- Filesystem probe of the extensionless-helper scenario. -/
def cx3Exists (p : String) : Bool := (List.lookup p cx3Contents).isSome

/-- Content mapping of the relative-import cycle scenario. -/
def cycContents : List (String × String) :=
  [("/p/components/a.ts", "fileA"), ("/p/components/b.ts", "fileB")]

/-- Parse results of the cycle scenario: each file imports the other
relatively. -/
def cycParse (filePath _content : String) : List ImportInfo :=
  if filePath = "/p/components/a.ts" then
    [{ path := "./b", line := 1, isDynamic := false, isRequire := false }]
  else if filePath = "/p/components/b.ts" then
    [{ path := "./a", line := 1, isDynamic := false, isRequire := false }]
  else []

/-- Filesystem probe of the cycle scenario. -/
def cycExists (p : String) : Bool := (List.lookup p cycContents).isSome

-- ============================================
-- HELPER LEMMAS
-- ============================================

/-- Appending over a list is prepending the start to the mapped sum. -/
theorem foldl_add_map {α : Type} (f : α → Nat) (l : List α) (s : Nat) :
    l.foldl (fun a x => a + f x) s = s + (l.map f).sum := by
  induction l generalizing s with
  | nil => simp
  | cons x xs ih => simp [List.foldl_cons, ih, Nat.add_assoc]

/-- Left fold of addition over naturals is the start plus the sum. -/
theorem foldl_add (l : List Nat) (s : Nat) :
    l.foldl (fun a x => a + x) s = s + l.sum := by
  induction l generalizing s with
  | nil => simp
  | cons x xs ih => simp [List.foldl_cons, ih, Nat.add_assoc]

/-- Appending a nonempty character list changes a list. -/
theorem append_ne_of_ne_nil {l e : List Char} (h : e ≠ []) : l ++ e ≠ l := by
  intro heq
  have hl := congrArg List.length heq
  simp [List.length_append] at hl
  exact h hl

/-- The data of an appended string is the appended data. -/
theorem strDataAppend (s t : String) : (s ++ t).data = s.data ++ t.data := by
  cases s
  cases t
  rfl

/-- Appending a nonempty string changes a string. -/
theorem strAppend_ne (s t : String) (h : t.data ≠ []) : s ++ t ≠ s := by
  intro heq
  have hd := congrArg String.data heq
  rw [strDataAppend] at hd
  exact append_ne_of_ne_nil h hd

/-- A guarded accumulation step equals adding the conditional amount. -/
theorem guarded_step {c : Prop} [Decidable c] (s k : Nat) :
    (if c then s + k else s) = s + (if c then k else 0) := by
  by_cases h : c <;> simp [h]

/-- A scaled count guarded by its own positivity is unconditional. -/
theorem ite_pos_mul (x k : Nat) : (if x > 0 then x * k else 0) = x * k := by
  cases x with
  | zero => simp
  | succ n => simp

/-- Classification of one edge yields only the direct reason kinds. -/
theorem classifyEdge_type {imp : ImportInfo} {tc : TsConfigPaths} {pr cfd : String}
    {pc : PurityConfig} {r : Reason}
    (h : classifyEdge imp tc pr cfd pc = some r) :
    r.type = ReasonType.forbiddenImport ∨ r.type = ReasonType.serverApi := by
  unfold classifyEdge at h
  split at h
  · left
    cases h
    rfl
  · split at h
    · right
      cases h
      rfl
    · dsimp only at h
      split at h
      · left
        cases h
        rfl
      · cases h

/-- Direct checking never produces a transitive-typed reason. -/
theorem analyzeFileImports_not_transitive {parse : String → String → List ImportInfo}
    {filePath : String} {fileContents : List (String × String)} {projectRoot : String}
    {tc : TsConfigPaths} {pc : PurityConfig} {visited : List String} {r : Reason}
    (h : r ∈ analyzeFileImports parse filePath fileContents projectRoot tc pc visited) :
    r.type ≠ ReasonType.transitive := by
  unfold analyzeFileImports at h
  split at h
  · simp at h
  · split at h
    · simp at h
    · obtain ⟨imp, _, hc⟩ := List.mem_filterMap.mp h
      rcases classifyEdge_type hc with ht | ht <;> simp [ht]

/-- Transitive checking produces only transitive-typed reasons. -/
theorem checkTransitiveImports_transitive {parse : String → String → List ImportInfo}
    {fsExists : String → Bool} {filePath : String}
    {fileContents : List (String × String)} {projectRoot : String}
    {tc : TsConfigPaths} {pc : PurityConfig} {visited : List String} {r : Reason}
    (h : r ∈ checkTransitiveImports parse fsExists filePath fileContents projectRoot tc pc visited) :
    r.type = ReasonType.transitive := by
  unfold checkTransitiveImports at h
  split at h
  · simp at h
  · split at h
    · simp at h
    · split at h
      · simp at h
      · obtain ⟨imp, _, hc⟩ := List.mem_filterMap.mp h
        split at hc
        · cases hc
        · split at hc
          · cases hc
          · split at hc
            · cases hc
            · split at hc
              · cases hc
              · split at hc
                · cases hc
                  rfl
                · cases hc

/-- C2: the purity score of every produced report is the weight sum of
its reasons clamped to 100, the purity flag is impure exactly when the
score is positive, and an impure report carries at least one reason. -/
theorem c2_purity_score_invariants
    (parse : String → String → List ImportInfo) (fsExists : String → Bool)
    (filePath relativePath : String) (fileContents : List (String × String))
    (projectRoot : String) (tc : TsConfigPaths) (pc : PurityConfig)
    (rep : ImportBoundaryReport)
    (h : analyzeFile parse fsExists filePath relativePath fileContents projectRoot tc pc = some rep) :
    rep.score = Nat.min 100 ((rep.reasons.map fun r => reasonWeight r.type).sum)
    ∧ rep.score ≤ 100
    ∧ (rep.purity = Purity.impure ↔ rep.score > 0)
    ∧ (rep.purity = Purity.impure → rep.reasons ≠ []) := by
  unfold analyzeFile at h
  dsimp only at h
  split at h
  · cases h
  · split at h
    · cases h
    · split at h
      · cases h
      · cases h
        refine ⟨?_, ?_, ?_, ?_⟩
        · dsimp only
          rw [foldl_add_map]
          simp
        · dsimp only
          exact Nat.min_le_left _ _
        · dsimp only
          split
          · rename_i hs
            simp [hs, reasonWeight]
          · rename_i hs
            simp [hs]
            omega
        · dsimp only
          intro himp hnil
          rw [hnil] at himp
          simp at himp

/-- C1 (amended): the transitive check runs unconditionally after the
direct check, so the transitive-typed reasons of every produced report
are exactly the transitive-check output, regardless of whether direct
reasons were found. -/
theorem c1_transitive_unconditional
    (parse : String → String → List ImportInfo) (fsExists : String → Bool)
    (filePath relativePath : String) (fileContents : List (String × String))
    (projectRoot : String) (tc : TsConfigPaths) (pc : PurityConfig)
    (rep : ImportBoundaryReport)
    (h : analyzeFile parse fsExists filePath relativePath fileContents projectRoot tc pc = some rep) :
    rep.reasons.filter (fun r => r.type == ReasonType.transitive)
      = checkTransitiveImports parse fsExists filePath fileContents projectRoot tc pc [] := by
  unfold analyzeFile at h
  dsimp only at h
  split at h
  · cases h
  · split at h
    · cases h
    · split at h
      · cases h
      · cases h
        dsimp only
        rw [List.filter_append, List.filter_append]
        have h1 : (analyzeFileImports parse filePath fileContents projectRoot tc pc []).filter
            (fun r => r.type == ReasonType.transitive) = [] := by
          rw [List.filter_eq_nil_iff]
          intro r hr
          simpa using analyzeFileImports_not_transitive hr
        have h2 : (checkTransitiveImports parse fsExists filePath fileContents projectRoot tc pc []).filter
            (fun r => r.type == ReasonType.transitive)
            = checkTransitiveImports parse fsExists filePath fileContents projectRoot tc pc [] := by
          rw [List.filter_eq_self]
          intro r hr
          simp [checkTransitiveImports_transitive hr]
        rw [h1, h2]
        split <;> simp

/-- C1 (counterexample): a UI-candidate file with a direct forbidden
specifier and a relative edge into an impure helper carries both a
forbidden-import reason and a transitive reason in one report. -/
theorem c1_counterexample :
    (analyzeFile cxParse cxExists "/p/components/a.tsx" "components/a.tsx" cxContents "/p"
        cxTsConfig cxPurity).map
      (fun rep => (rep.reasons.any fun r => r.type == ReasonType.forbiddenImport)
        && (rep.reasons.any fun r => r.type == ReasonType.transitive)) = some true := by
  decide

/-- C1 (witness): the amended statement at the concrete two-file scenario. -/
theorem c1_witness :
    cxReport.reasons.filter (fun r => r.type == ReasonType.transitive)
      = checkTransitiveImports cxParse cxExists "/p/components/a.tsx" cxContents "/p"
          cxTsConfig cxPurity [] :=
  c1_transitive_unconditional cxParse cxExists "/p/components/a.tsx" "components/a.tsx"
    cxContents "/p" cxTsConfig cxPurity cxReport (by decide)

/-- C2 (witness): the score and purity invariants at the concrete
two-file scenario. -/
theorem c2_witness :
    cxReport.score = Nat.min 100 ((cxReport.reasons.map fun r => reasonWeight r.type).sum)
    ∧ cxReport.score ≤ 100
    ∧ (cxReport.purity = Purity.impure ↔ cxReport.score > 0)
    ∧ (cxReport.purity = Purity.impure → cxReport.reasons ≠ []) :=
  c2_purity_score_invariants cxParse cxExists "/p/components/a.tsx" "components/a.tsx"
    cxContents "/p" cxTsConfig cxPurity cxReport (by decide)

/-- A probed candidate equals the bare resolved path exactly when the
path already ends with the candidate suffix. -/
theorem cand_eq_iff (r e : String) (hne : e.data ≠ []) :
    ((if strEndsWith r e then r else r ++ e) = r) ↔ strEndsWith r e = true := by
  by_cases h : strEndsWith r e
  · simp [h]
  · simp [h]
    exact strAppend_ne r e hne

/-- C3 (amended): the probed candidates are the resolved identity with
each of the four source suffixes appended (the suffix is not appended
again when the identity already ends with it); in particular the
identity as given is among the probed candidates exactly when it already
ends with one of the four suffixes. -/
theorem c3_probe_candidates (resolved : String) :
    (resolved ∈ extensionCandidates resolved ↔
      (strEndsWith resolved ".ts" = true ∨ strEndsWith resolved ".tsx" = true
        ∨ strEndsWith resolved ".js" = true ∨ strEndsWith resolved ".jsx" = true))
    ∧ (∀ ext ∈ [".ts", ".tsx", ".js", ".jsx"], strEndsWith resolved ext = false →
        resolved ++ ext ∈ extensionCandidates resolved) := by
  constructor
  · simp only [extensionCandidates, List.mem_map]
    constructor
    · rintro ⟨ext, hmem, heq⟩
      simp only [List.mem_cons, List.mem_singleton] at hmem
      rcases hmem with rfl | rfl | rfl | (rfl | h)
      · exact Or.inl ((cand_eq_iff _ _ (by decide)).mp heq)
      · exact Or.inr (Or.inl ((cand_eq_iff _ _ (by decide)).mp heq))
      · exact Or.inr (Or.inr (Or.inl ((cand_eq_iff _ _ (by decide)).mp heq)))
      · exact Or.inr (Or.inr (Or.inr ((cand_eq_iff _ _ (by decide)).mp heq)))
      · cases h
    · rintro (h | h | h | h)
      · exact ⟨".ts", by simp, by simp [h]⟩
      · exact ⟨".tsx", by simp, by simp [h]⟩
      · exact ⟨".js", by simp, by simp [h]⟩
      · exact ⟨".jsx", by simp, by simp [h]⟩
  · intro ext hmem hne
    simp only [extensionCandidates, List.mem_map]
    exact ⟨ext, hmem, by simp [hne]⟩

/-- C3 (counterexample): a relative import resolving to an identity that
is a key of the content mapping but bears no source suffix is never
found by the probe — the bare resolved path is not among the candidates,
so the impure extensionless helper yields no transitive reason. -/
theorem c3_counterexample :
    resolvePathAlias "./b" cxTsConfig "/p" (dirname "/p/components/a.tsx") = some "/p/components/b"
    ∧ (List.lookup "/p/components/b" cx3Contents).isSome = true
    ∧ analyzeFileImports cx3Parse "/p/components/b" cx3Contents "/p" cxTsConfig cxPurity [] ≠ []
    ∧ ¬ ("/p/components/b" ∈ extensionCandidates "/p/components/b")
    ∧ checkTransitiveImports cx3Parse cx3Exists "/p/components/a.tsx" cx3Contents "/p"
        cxTsConfig cxPurity [] = [] := by
  refine ⟨by decide, by decide, by decide, by decide, by decide⟩

/-- C3 (witness): the amended statement at concrete paths — a path with
a source suffix is itself probed, a bare one is probed only in suffixed
form. -/
theorem c3_witness :
    ("/p/components/b.ts" ∈ extensionCandidates "/p/components/b.ts")
    ∧ ("/p/components/b" ++ ".ts" ∈ extensionCandidates "/p/components/b") :=
  ⟨(c3_probe_candidates "/p/components/b.ts").1.mpr (Or.inl (by decide)),
   (c3_probe_candidates "/p/components/b").2 ".ts" (by decide) (by decide)⟩

/-- C4: the direct check classifies each edge first-match-wins in the
order forbidden matchers, server matchers, business-directory
containment, emitting at most one reason per edge; the matcher test is
prefix matching for slash-terminated matchers, otherwise exact or
prefix-with-slash. -/
theorem c4_direct_decision (imp : ImportInfo) (tc : TsConfigPaths)
    (projectRoot currentFileDir : String) (pc : PurityConfig) :
    (checkImportAgainstMatchers imp.path pc.forbiddenImportMatchers = true →
      classifyEdge imp tc projectRoot currentFileDir pc = some
        { type := ReasonType.forbiddenImport
          importPath := imp.path
          resolvedPath := orUndefined (resolvePathAlias imp.path tc projectRoot currentFileDir)
          line := some imp.line
          message := "Forbidden import: \"" ++ imp.path ++ "\"" })
    ∧ (checkImportAgainstMatchers imp.path pc.forbiddenImportMatchers = false →
       checkImportAgainstMatchers imp.path pc.nextServerImportMatchers = true →
      classifyEdge imp tc projectRoot currentFileDir pc = some
        { type := ReasonType.serverApi
          importPath := imp.path
          resolvedPath := none
          line := some imp.line
          message := "Next.js server API: \"" ++ imp.path ++ "\"" })
    ∧ (checkImportAgainstMatchers imp.path pc.forbiddenImportMatchers = false →
       checkImportAgainstMatchers imp.path pc.nextServerImportMatchers = false →
       isBusinessDir (resolvePathAlias imp.path tc projectRoot currentFileDir)
         pc.businessDirMatchers = true →
      classifyEdge imp tc projectRoot currentFileDir pc = some
        { type := ReasonType.forbiddenImport
          importPath := imp.path
          resolvedPath := orUndefined (resolvePathAlias imp.path tc projectRoot currentFileDir)
          line := some imp.line
          message := "Business logic zone import: \"" ++ imp.path ++ "\"" })
    ∧ (checkImportAgainstMatchers imp.path pc.forbiddenImportMatchers = false →
       checkImportAgainstMatchers imp.path pc.nextServerImportMatchers = false →
       isBusinessDir (resolvePathAlias imp.path tc projectRoot currentFileDir)
         pc.businessDirMatchers = false →
      classifyEdge imp tc projectRoot currentFileDir pc = none)
    ∧ (∀ matchers, checkImportAgainstMatchers imp.path matchers = true ↔
        ∃ m ∈ matchers,
          (strEndsWith m "/" = true ∧ strStartsWith imp.path m = true)
          ∨ (strEndsWith m "/" = false
             ∧ (imp.path = m ∨ strStartsWith imp.path (m ++ "/") = true)))
    ∧ (∀ parse filePath fileContents visited,
        (analyzeFileImports parse filePath fileContents projectRoot tc pc visited).length
          ≤ (match List.lookup filePath fileContents with
             | some content => (parse filePath content).length
             | none => 0)) := by
  refine ⟨?_, ?_, ?_, ?_, ?_, ?_⟩
  · intro hf
    simp [classifyEdge, hf]
  · intro hf hs
    simp [classifyEdge, hf, hs]
  · intro hf hs hb
    simp [classifyEdge, hf, hs, hb]
  · intro hf hs hb
    simp [classifyEdge, hf, hs, hb]
  · intro matchers
    unfold checkImportAgainstMatchers
    rw [List.any_eq_true]
    apply exists_congr
    intro m
    apply and_congr_right
    intro _
    by_cases he : strEndsWith m "/" <;> simp [he]
  · intro parse filePath fileContents visited
    unfold analyzeFileImports
    cases hl : List.lookup filePath fileContents with
    | none => simp
    | some content =>
      by_cases hc : content = ""
      · simp [hc]
      · simp [hc]
        exact List.length_filterMap_le _ _

/-- C4 (witness): a forbidden-matcher hit at a concrete edge. -/
theorem c4_witness :
    classifyEdge { path := "@/lib/x", line := 1, isDynamic := false, isRequire := false }
        cxTsConfig "/p" "/p/components" cxPurity = some
      { type := ReasonType.forbiddenImport
        importPath := "@/lib/x"
        resolvedPath := orUndefined (resolvePathAlias "@/lib/x" cxTsConfig "/p" "/p/components")
        line := some 1
        message := "Forbidden import: \"" ++ "@/lib/x" ++ "\"" } :=
  (c4_direct_decision { path := "@/lib/x", line := 1, isDynamic := false, isRequire := false }
    cxTsConfig "/p" "/p/components" cxPurity).1 (by decide)

/-- C5: the risk tier the code assigns equals the spec-worded decision
(page-level conditions first, then careful, else safe, over the
unconditional weighted score); and a file with exactly one native
element and no other signals is always classified careful. -/
theorem c5_risk_tier :
    (∀ (signals : BusinessSignals) (nativeHtmlCount fileLines : Nat) (thresholds : RiskThresholds),
      (assessRisk signals nativeHtmlCount fileLines thresholds).riskLevel
        = riskLevelSpec signals nativeHtmlCount fileLines thresholds)
    ∧ (∀ (fileLines : Nat) (thresholds : RiskThresholds),
      (assessRisk
        { apiCalls := 0, useStateCount := 0, useEffectCount := 0
          fileUploads := false, authFlows := false, formHandling := false }
        1 fileLines thresholds).riskLevel = RiskLevel.careful) := by
  constructor
  · intro s n fl th
    simp only [assessRisk, riskLevelSpec, specWeightedScore, guarded_step, ite_pos_mul,
      Nat.zero_add]
    refine if_congr ?_ rfl (if_congr ?_ rfl rfl)
    · simp only [Bool.or_eq_true, decide_eq_true_eq]
      tauto
    · simp only [Bool.or_eq_true, decide_eq_true_eq]
      tauto
  · intro fl th
    by_cases h300 : fl > 300 <;>
      simp [assessRisk, guarded_step, ite_pos_mul, h300, Nat.not_lt_zero]

/-- C6: transitive checking is total — a file already in the visited set
is skipped outright, and the reason list is always finite and bounded by
the number of import edges of the file, so a relative-import cycle still
yields a definite result. -/
theorem c6_transitive_termination
    (parse : String → String → List ImportInfo) (fsExists : String → Bool)
    (filePath : String) (fileContents : List (String × String))
    (projectRoot : String) (tc : TsConfigPaths) (pc : PurityConfig)
    (visited : List String) :
    (visited.contains filePath = true →
      checkTransitiveImports parse fsExists filePath fileContents projectRoot tc pc visited = [])
    ∧ (checkTransitiveImports parse fsExists filePath fileContents projectRoot tc pc visited).length
        ≤ (match List.lookup filePath fileContents with
           | some content => (parse filePath content).length
           | none => 0) := by
  constructor
  · intro hv
    unfold checkTransitiveImports
    rw [if_pos hv]
  · unfold checkTransitiveImports
    by_cases hv : visited.contains filePath = true
    · rw [if_pos hv]
      exact Nat.zero_le _
    · rw [if_neg hv]
      cases hl : List.lookup filePath fileContents with
      | none => simp [hl]
      | some content =>
        by_cases hc : content = ""
        · simp [hl, hc]
        · simp [hl, hc]
          exact List.length_filterMap_le _ _

/-- C6 (witness): a two-file relative-import cycle with the analyzed
file already visited is skipped, and the unvisited traversal of the
cycle produces a definite bounded reason list. -/
theorem c6_witness :
    (checkTransitiveImports cycParse cycExists "/p/components/a.ts" cycContents "/p"
        cxTsConfig cxPurity ["/p/components/a.ts"] = [])
    ∧ (checkTransitiveImports cycParse cycExists "/p/components/a.ts" cycContents "/p"
        cxTsConfig cxPurity []).length
        ≤ (match List.lookup "/p/components/a.ts" cycContents with
           | some content => (cycParse "/p/components/a.ts" content).length
           | none => 0) :=
  ⟨(c6_transitive_termination cycParse cycExists "/p/components/a.ts" cycContents "/p"
      cxTsConfig cxPurity ["/p/components/a.ts"]).1 (by decide),
   (c6_transitive_termination cycParse cycExists "/p/components/a.ts" cycContents "/p"
      cxTsConfig cxPurity []).2⟩

/-- C7: alias patterns are tried first in declaration order with the
first match winning (its wildcard capture substituted into the
replacement and resolved against the base directory, or the project root
when unset); with no alias match, a root-absolute specifier resolves
against the project root, a dot-relative one against the current file
directory, and a bare specifier yields null. -/
theorem c7_alias_resolution :
    (∀ (importPath : String) (tc : TsConfigPaths) (projectRoot currentFileDir : String),
      tryAliases tc.paths importPath tc.baseUrl projectRoot = none →
      resolvePathAlias importPath tc projectRoot currentFileDir =
        (if strStartsWith importPath "/" then
          some (pathResolve projectRoot (ofChars (importPath.data.drop 1)))
        else if strStartsWith importPath "." then
          some (pathResolve currentFileDir importPath)
        else none))
    ∧ (∀ (importPath : String) (baseUrl : Option String) (pattern : String)
        (replacements : List String) (rest : List (String × List String))
        (projectRoot currentFileDir capture replacement : String),
      patternMatch pattern importPath = some capture →
      replacements.head? = some replacement → replacement ≠ "" →
      resolvePathAlias importPath { baseUrl := baseUrl, paths := (pattern, replacements) :: rest }
          projectRoot currentFileDir
        = some (pathResolve (pathResolve projectRoot (baseUrl.getD projectRoot))
            (substCapture replacement capture)))
    ∧ (∀ (importPath : String) (baseUrl : Option String) (pattern : String)
        (replacements : List String) (rest : List (String × List String))
        (projectRoot currentFileDir : String),
      patternMatch pattern importPath = none →
      resolvePathAlias importPath { baseUrl := baseUrl, paths := (pattern, replacements) :: rest }
          projectRoot currentFileDir
        = resolvePathAlias importPath { baseUrl := baseUrl, paths := rest }
            projectRoot currentFileDir) := by
  refine ⟨?_, ?_, ?_⟩
  · intro ip tc pr cfd hNo
    unfold resolvePathAlias
    rw [hNo]
    cases h1 : strStartsWith ip "." <;> cases h2 : strStartsWith ip "/" <;> simp [h1, h2]
  · intro ip baseUrl pattern replacements rest pr cfd capture replacement hm hh hr
    simp [resolvePathAlias, tryAliases, hm, hh, hr]
  · intro ip baseUrl pattern replacements rest pr cfd hm
    simp [resolvePathAlias, tryAliases, hm]

/-- C7 (witness): at a concrete two-entry alias table the first matching
pattern wins, a bare specifier without alias yields null, and relative
and root-absolute specifiers resolve against their respective roots. -/
theorem c7_witness :
    resolvePathAlias "@/x/y"
        { baseUrl := none, paths := [("@/*", ["./src/*"]), ("@/*", ["./other/*"])] }
        "/p" "/p/components"
      = some (pathResolve (pathResolve "/p" ((none : Option String).getD "/p"))
          (substCapture "./src/*" "x/y"))
    ∧ resolvePathAlias "lodash" cxTsConfig "/p" "/p/components" =
        (if strStartsWith "lodash" "/" then
          some (pathResolve "/p" (ofChars ("lodash".data.drop 1)))
        else if strStartsWith "lodash" "." then
          some (pathResolve "/p/components" "lodash")
        else none) :=
  ⟨(c7_alias_resolution).2.1 "@/x/y" none "@/*" ["./src/*"] [("@/*", ["./other/*"])]
      "/p" "/p/components" "x/y" "./src/*" (by decide) (by decide) (by decide),
   (c7_alias_resolution).1 "lodash" cxTsConfig "/p" "/p/components" (by decide)⟩

/-- A produced report implies the UI-candidate test succeeded on the
relative path the file was analyzed under. -/
theorem analyzeFile_candidate {parse : String → String → List ImportInfo}
    {fsExists : String → Bool} {fp rel : String} {m : List (String × String)}
    {root : String} {tc : TsConfigPaths} {pc : PurityConfig} {r : ImportBoundaryReport}
    (h : analyzeFile parse fsExists fp rel m root tc pc = some r) :
    (pc.uiCandidateDirs.any fun dir =>
      strStartsWith rel dir || strStartsWith rel (dir ++ "/")) = true := by
  unfold analyzeFile at h
  dsimp only at h
  split at h
  · cases h
  · rename_i hcond
    cases hx : (pc.uiCandidateDirs.any fun dir =>
        strStartsWith rel dir || strStartsWith rel (dir ++ "/")) with
    | true => rfl
    | false =>
      rw [hx] at hcond
      simp at hcond

/-- A file whose stored content is the empty string produces no report:
the falsy-content gate returns null. -/
theorem analyzeFile_empty_content {parse : String → String → List ImportInfo}
    {fsExists : String → Bool} {fp rel : String} {m : List (String × String)}
    {root : String} {tc : TsConfigPaths} {pc : PurityConfig}
    (h : List.lookup fp m = some "") :
    analyzeFile parse fsExists fp rel m root tc pc = none := by
  unfold analyzeFile
  dsimp only
  split
  · rfl
  · rw [h]
    simp

/-- The report collection of the public entry point has no entry at a
relative path at which every iterated file analyzes to null. -/
theorem lookup_filterMap_none (parse : String → String → List ImportInfo)
    (fsExists : String → Bool) (m : List (String × String)) (root : String)
    (tc : TsConfigPaths) (pc : PurityConfig) (rel : String) :
    ∀ l : List (String × String),
      (∀ e ∈ l, relativeTo root e.1 = rel →
        analyzeFile parse fsExists e.1 (relativeTo root e.1) m root tc pc = none) →
      List.lookup rel (l.filterMap fun entry =>
        match analyzeFile parse fsExists entry.1 (relativeTo root entry.1) m root tc pc with
        | some report => some (relativeTo root entry.1, report)
        | none => none) = none := by
  intro l
  induction l with
  | nil => intro _; rfl
  | cons e es ih =>
    intro hgood
    simp only [List.filterMap_cons]
    cases hA : analyzeFile parse fsExists e.1 (relativeTo root e.1) m root tc pc with
    | none =>
      simp only [hA]
      exact ih fun x hx => hgood x (List.mem_cons_of_mem e hx)
    | some rep =>
      have hne : relativeTo root e.1 ≠ rel := by
        intro he
        rw [hgood e (List.mem_cons_self e es) he] at hA
        cases hA
      have hbeq : (rel == relativeTo root e.1) = false := by
        simpa using hne.symm
      simp only [hA, List.lookup_cons, hbeq]
      exact ih fun x hx => hgood x (List.mem_cons_of_mem e hx)

/-- C8: a relative path that is under no configured UI-candidate
directory prefix is never a key of the purity-report mapping. -/
theorem c8_non_candidate_exclusion
    (parse : String → String → List ImportInfo) (fsExists : String → Bool)
    (fileContents : List (String × String)) (projectRoot : String)
    (tc : TsConfigPaths) (config : DsCoverageConfig) (relPath : String)
    (hcand : (config.purity.uiCandidateDirs.any fun dir =>
      strStartsWith relPath dir || strStartsWith relPath (dir ++ "/")) = false) :
    List.lookup relPath
      (analyzeImportBoundaries parse fsExists fileContents projectRoot tc config) = none := by
  unfold analyzeImportBoundaries
  by_cases he : config.purity.enabled = true
  · rw [if_neg (by simp [he])]
    refine lookup_filterMap_none parse fsExists fileContents projectRoot tc config.purity
      relPath fileContents (fun e _ herel => ?_)
    cases hA : analyzeFile parse fsExists e.1 (relativeTo projectRoot e.1) fileContents
        projectRoot tc config.purity with
    | none => rfl
    | some rep =>
      have hc := analyzeFile_candidate hA
      rw [herel, hcand] at hc
      cases hc
  · rw [if_pos (by simp [Bool.not_eq_true] at he; simp [he])]
    rfl

/-- C8 (witness): a file outside the candidate directory produces no
keyed entry. -/
theorem c8_witness :
    List.lookup "helper.ts"
      (analyzeImportBoundaries cxParse cxExists [("/p/helper.ts", "fileH")] "/p"
        cxTsConfig { purity := cxPurity }) = none :=
  c8_non_candidate_exclusion cxParse cxExists [("/p/helper.ts", "fileH")] "/p"
    cxTsConfig { purity := cxPurity } "helper.ts" (by decide)

/-- Under pairwise-distinct relative paths, a member entry with empty
text is the lookup result at its key. -/
theorem lookup_of_pairwise {root fp : String} :
    ∀ {m : List (String × String)},
      List.Pairwise (fun a b => relativeTo root a.1 ≠ relativeTo root b.1) m →
      (fp, "") ∈ m → List.lookup fp m = some "" := by
  intro m
  induction m with
  | nil => intro _ h; cases h
  | cons e es ih =>
    intro hpw hmem
    rcases List.mem_cons.mp hmem with he | hes
    · rw [← he]
      simp [List.lookup_cons]
    · by_cases hk : e.1 = fp
      · exfalso
        have hrel := (List.pairwise_cons.mp hpw).1 (fp, "") hes
        rw [hk] at hrel
        exact hrel rfl
      · have hbeq : (fp == e.1) = false := by
          simpa using fun h => hk h.symm
        cases e with
        | mk k v =>
          simp only [List.lookup_cons, hbeq]
          exact ih (List.pairwise_cons.mp hpw).2 hes

/-- Under pairwise-distinct relative paths, any member entry sharing the
relative path of a member with empty text is that entry itself. -/
theorem mem_rel_eq_of_pairwise {root fp : String} {m : List (String × String)}
    (hpw : List.Pairwise (fun a b => relativeTo root a.1 ≠ relativeTo root b.1) m)
    (hmem : (fp, "") ∈ m) {e : String × String} (hel : e ∈ m)
    (he : relativeTo root e.1 = relativeTo root fp) : e = (fp, "") := by
  by_contra hne
  have hsym : Symmetric (fun (a b : String × String) =>
      relativeTo root a.1 ≠ relativeTo root b.1) :=
    fun a b h hba => h hba.symm
  exact (hpw.forall hsym hel hmem hne) he

/-- C9: an entry of the content mapping holding the empty string yields
no report entry at its relative path — at the public interface an empty
UI-candidate file is indistinguishable from an unanalyzed one (the
pairwise hypothesis says relative paths identify entries, as for a
mapping keyed by absolute identities under one root). -/
theorem c9_empty_content_excluded
    (parse : String → String → List ImportInfo) (fsExists : String → Bool)
    (fileContents : List (String × String)) (projectRoot : String)
    (tc : TsConfigPaths) (config : DsCoverageConfig) (fp : String)
    (hpw : List.Pairwise (fun a b =>
      relativeTo projectRoot a.1 ≠ relativeTo projectRoot b.1) fileContents)
    (hmem : (fp, "") ∈ fileContents) :
    List.lookup (relativeTo projectRoot fp)
      (analyzeImportBoundaries parse fsExists fileContents projectRoot tc config) = none := by
  unfold analyzeImportBoundaries
  by_cases he : config.purity.enabled = true
  · rw [if_neg (by simp [he])]
    refine lookup_filterMap_none parse fsExists fileContents projectRoot tc config.purity
      (relativeTo projectRoot fp) fileContents (fun e hel herel => ?_)
    have heq : e = (fp, "") := mem_rel_eq_of_pairwise hpw hmem hel herel
    rw [heq]
    exact analyzeFile_empty_content (lookup_of_pairwise hpw hmem)
  · rw [if_pos (by simp [Bool.not_eq_true] at he; simp [he])]
    rfl

/-- C9 (witness): a single empty UI-candidate file produces an empty
report mapping at its relative path. -/
theorem c9_witness :
    List.lookup (relativeTo "/p" "/p/components/a.tsx")
      (analyzeImportBoundaries cxParse cxExists [("/p/components/a.tsx", "")] "/p"
        cxTsConfig { purity := cxPurity }) = none :=
  c9_empty_content_excluded cxParse cxExists [("/p/components/a.tsx", "")] "/p"
    cxTsConfig { purity := cxPurity } "/p/components/a.tsx"
    (by simp) (by simp)

/-- Membership after a record assignment: the assigned pair or an
original member. -/
theorem recordSet_mem {m : List (String × Nat)} {k : String} {v : Nat}
    {p : String × Nat} (h : p ∈ recordSet m k v) : p = (k, v) ∨ p ∈ m := by
  induction m with
  | nil =>
    simp [recordSet] at h
    exact Or.inl h
  | cons e es ih =>
    cases e with
    | mk k' v' =>
      by_cases hk : k' = k
      · simp [recordSet, hk] at h
        rcases h with h | h
        · exact Or.inl (by simp [h])
        · exact Or.inr (List.mem_cons_of_mem _ h)
      · simp only [recordSet, if_neg hk] at h
        rcases List.mem_cons.mp h with h | h
        · exact Or.inr (by simp [h])
        · rcases ih h with h | h
          · exact Or.inl h
          · exact Or.inr (List.mem_cons_of_mem _ h)

/-- A record assignment keeps every existing key. -/
theorem recordSet_keys_sub {m : List (String × Nat)} {k k' : String} {v : Nat}
    (h : k' ∈ m.map Prod.fst) : k' ∈ (recordSet m k v).map Prod.fst := by
  induction m with
  | nil => cases h
  | cons e es ih =>
    cases e with
    | mk a b =>
      by_cases hk : a = k
      · simp [recordSet, hk]
        simp [hk] at h
        rcases h with h | h
        · exact Or.inl h
        · exact Or.inr h
      · simp [recordSet, hk]
        simp at h
        rcases h with h | h
        · exact Or.inl h
        · exact Or.inr (by simpa using ih (by simpa using h))

/-- A record assignment makes the assigned key present. -/
theorem recordSet_key_self {m : List (String × Nat)} {k : String} {v : Nat} :
    k ∈ (recordSet m k v).map Prod.fst := by
  induction m with
  | nil => simp [recordSet]
  | cons e es ih =>
    cases e with
    | mk a b =>
      by_cases hk : a = k
      · simp [recordSet, hk]
      · simp [recordSet, hk]
        exact Or.inr (by simpa using ih)

/-- The counts fold preserves the value invariant: every stored value is
the count of its key. -/
theorem foldl_recordSet_inv (c : String → Nat) :
    ∀ (els : List String) (m : List (String × Nat)),
      (∀ p ∈ m, p.2 = c p.1) →
      ∀ p ∈ els.foldl (fun acc e => recordSet acc e (c e)) m, p.2 = c p.1 := by
  intro els
  induction els with
  | nil => intro m hm p hp; exact hm p hp
  | cons e els ih =>
    intro m hm p hp
    refine ih (recordSet m e (c e)) (fun q hq => ?_) p hp
    rcases recordSet_mem hq with h | h
    · simp [h]
    · exact hm q h

/-- The counts fold accumulates every folded key. -/
theorem foldl_recordSet_keys (c : String → Nat) :
    ∀ (els : List String) (m : List (String × Nat)) (k : String),
      (k ∈ m.map Prod.fst ∨ k ∈ els) →
      k ∈ (els.foldl (fun acc e => recordSet acc e (c e)) m).map Prod.fst := by
  intro els
  induction els with
  | nil =>
    intro m k h
    rcases h with h | h
    · exact h
    · cases h
  | cons e els ih =>
    intro m k h
    rcases h with h | h
    · exact ih _ k (Or.inl (recordSet_keys_sub h))
    · rcases List.mem_cons.mp h with rfl | h
      · exact ih _ k (Or.inl recordSet_key_self)
      · exact ih _ k (Or.inr h)

/-- Lookup in a record satisfying the value invariant returns the count
of any present key. -/
theorem lookup_of_inv (c : String → Nat) :
    ∀ (l : List (String × Nat)), (∀ p ∈ l, p.2 = c p.1) →
      ∀ k ∈ l.map Prod.fst, List.lookup k l = some (c k) := by
  intro l
  induction l with
  | nil => intro _ k hk; cases hk
  | cons e es ih =>
    intro hinv k hk
    cases e with
    | mk a b =>
      by_cases hak : k = a
      · have hb : b = c a := hinv (a, b) (List.mem_cons_self _ _)
        simp [List.lookup_cons, hak, hb]
      · have hbeq : (k == a) = false := by simpa using hak
        simp only [List.lookup_cons, hbeq]
        refine ih (fun q hq => hinv q (List.mem_cons_of_mem _ hq)) k ?_
        simp at hk
        rcases hk with hk | hk
        · exact absurd hk hak
        · simpa using hk

/-- C10: the native-element record totals the per-element counts — the
total is the sum of the stored values, every stored value is the
boundary-aware occurrence count of its key, and every configured element
is stored with its occurrence count. -/
theorem c10_native_counts (content : String) (elements : List String) :
    ((detectNativeHtmlElements content elements).total
      = ((detectNativeHtmlElements content elements).counts.map Prod.snd).sum)
    ∧ (∀ p ∈ (detectNativeHtmlElements content elements).counts,
        p.2 = countElementMatches content p.1)
    ∧ (∀ e ∈ elements,
        List.lookup e (detectNativeHtmlElements content elements).counts
          = some (countElementMatches content e)) := by
  refine ⟨?_, ?_, ?_⟩
  · simp only [detectNativeHtmlElements]
    rw [foldl_add]
    simp
  · intro p hp
    simp only [detectNativeHtmlElements] at hp
    exact foldl_recordSet_inv (countElementMatches content) elements [] (by simp) p hp
  · intro e he
    simp only [detectNativeHtmlElements]
    refine lookup_of_inv (countElementMatches content) _
      (foldl_recordSet_inv (countElementMatches content) elements [] (by simp)) e ?_
    exact foldl_recordSet_keys (countElementMatches content) elements [] e (Or.inr he)

/-- C10 (witness): the stored count of a concrete element list over
concrete content. -/
theorem c10_witness :
    List.lookup "button" (detectNativeHtmlElements "<button><input/><button >"
        ["button", "input"]).counts
      = some (countElementMatches "<button><input/><button >" "button") :=
  (c10_native_counts "<button><input/><button >" ["button", "input"]).2.2 "button" (by decide)
